import Mathlib

/-!
Verification of the field-permission resolution algorithm of
django-field-permissions.

The development shallowly embeds the code of `field_permissions/models.py`
(`FieldPermissionModelMixin.has_field_perm` and `has_perm`),
`field_permissions/backends.py` (`InstancePermissionBackend`),
`field_permissions/forms.py` (`FieldPermissionFormMixin.__init__`) and
`field_permissions/api/rest_framework.py`
(`FieldPermissionSerializerMixin.__init__`).

Modelling decisions:
* Fallible code returns `Except PyError`.  Two names used by the source
  are defined nowhere in the repository: `models.py` imports only
  `django.db.models` yet its adaptation loop evaluates
  `partial(perm, field=field)` at models.py:22, and `backends.py` has
  no imports at all yet `get_all_permissions` evaluates `check_support`
  and `ObjectPermissionChecker`.  Evaluating an undefined name raises
  NameError, and an assignment's right-hand side is evaluated before the
  assignment happens, so the adaptation loop raises at its first
  callable element without ever writing to the aliased checks list, and
  `get_all_permissions` raises before its first branch.  The embedding
  reproduces these raises instead of the behaviour the crashed code was
  apparently meant to have.
* A predicate's verdict is `Option Bool`: `some b` is a decisive
  boolean, `none` models a Python `None` return (abstention).
* Python dicts and attribute namespaces are association lists with
  first-match lookup; the table component of a successful
  `has_field_perm` result is the class-level `field_permissions` dict as
  it stands after the call, with a list entry written through the alias
  the source takes on it.
-/

namespace FieldPerm

/-- A raised Python exception; the only kind this program can raise on
its own is a NameError naming the undefined identifier. -/
inductive PyError : Type where
  | nameError : String → PyError
  deriving DecidableEq

/-- Association-list lookup with first-match semantics, keyed by strings:
models Python dict key lookup (`d[k]`, `k in d`) and attribute lookup over
a finite attribute table (`getattr`, `hasattr`). -/
def alookup {α : Type} (key : String) : List (String × α) → Option α
  | [] => none
  | p :: rest => if p.1 = key then some p.2 else alookup key rest

/-- One check of a checks list: a callable predicate (identified by an
index into the environment below), or a non-callable value (the source
treats every non-callable check as a permission label and hands it to
`user.has_perm`). -/
inductive Check : Type where
  | callable : Nat → Check
  | str : String → Check
  deriving DecidableEq

/-- A value stored in the `field_permissions` table: a bare single check,
or a list (or tuple) of checks — the source's
`isinstance(checks, (list, tuple))` distinction. -/
inductive FPEntry : Type where
  | single : Check → FPEntry
  | list : List Check → FPEntry
  deriving DecidableEq

/-- Behaviour of the callables for a fixed (instance, user) pair: the
verdict callable `n` returns when invoked as `perm(self, user=user)` —
`some b` for a decisive boolean, `none` for an abstaining `None`. -/
abbrev PredSem := Nat → Option Bool

/-- The acting user: an opaque principal exposing only the unscoped
permission query `user.has_perm(label)`. -/
structure User where
  hasPerm : String → Bool

/-- The class-level declarations of `FieldPermissionModelMixin`:
the per-field permission table, the two name templates (modelled as the
substitution functions the `str.format` calls compute), and the default
used when no checks resolve. -/
structure FPClass where
  field_permissions : List (String × FPEntry)
  FIELD_PERM_CODENAME : String → String → String
  FIELD_PERMISSION_GETTER : String → String
  FIELD_PERMISSION_MISSING_DEFAULT : Bool

/-- The source's class-attribute defaults:
`FIELD_PERM_CODENAME = 'can_change_{model}_{name}'`,
`FIELD_PERMISSION_GETTER = 'can_change_{name}'`,
`FIELD_PERMISSION_MISSING_DEFAULT = True`. -/
def FPClass.defaults (fp : List (String × FPEntry)) : FPClass :=
  ⟨fp, fun model name => "can_change_" ++ model ++ "_" ++ name,
    fun name => "can_change_" ++ name, true⟩

/-- A model instance: its class-level declarations, its attribute table
(consulted by `hasattr`/`getattr` for the getter convention), the model
name (`self._meta.model_name`) and the declared static permissions
(`self._meta.permissions`, a list of (codename, human name) pairs). -/
structure Instance where
  cls : FPClass
  attrs : List (String × Check)
  model_name : String
  meta_permissions : List (String × String)

/-- The checks list a table entry denotes: a bare check is treated as a
one-element list. -/
def tableChecks : FPEntry → List Check
  | FPEntry.single c => [c]
  | FPEntry.list cs => cs

/-- The enumerate loop over the checks list taken from the table
(models.py:20-22): each element is examined in order, and for a callable
element the loop evaluates `partial(perm, field=field)` — but `partial`
is defined nowhere in the repository (models.py imports only
`django.db.models`), so the first callable element raises
`NameError: name 'partial' is not defined` before the element
assignment ever executes; non-callable elements are left untouched.  A
list without callables survives the loop unchanged. -/
def adaptLoop : List Check → Except PyError (List Check)
  | [] => Except.ok []
  | Check.callable _ :: _ => Except.error (PyError.nameError "partial")
  | Check.str s :: rest => Except.map (fun cs => Check.str s :: cs) (adaptLoop rest)

/-- Replace the entry of the first pair with the given key: how a pure
state renders the alias the source takes on the stored list object. -/
def updateEntry (field : String) (e : FPEntry) :
    List (String × FPEntry) → List (String × FPEntry)
  | [] => []
  | p :: rest => if p.1 = field then (p.1, e) :: rest else p :: updateEntry field e rest

/-- The convention-synthesis branch of `has_field_perm`, taken when the
field has no entry in the table: prefer an instance attribute named by the
getter template; otherwise use the static codename, but only when it
appears among the model's declared permissions.  This branch builds a
fresh local list and never reaches the adaptation loop. -/
def conventionChecks (self : Instance) (field : String) : List Check :=
  match alookup (self.cls.FIELD_PERMISSION_GETTER field) self.attrs with
  | some a => [a]
  | none =>
    let perm_label := self.cls.FIELD_PERM_CODENAME self.model_name field
    if (alookup perm_label self.meta_permissions).isSome then [Check.str perm_label]
    else []

/-- The resolution loop of `has_field_perm`: a callable check is invoked
with the instance and user; a non-`None` result is returned at once.  A
non-callable check is handed to the unscoped `user.has_perm`; only a
true answer returns at once.  An exhausted list yields `False`. -/
def runChecks (env : PredSem) (user : User) : List Check → Bool
  | [] => false
  | Check.callable n :: rest =>
    match env n with
    | some b => b
    | none => runChecks env user rest
  | Check.str s :: rest => if user.hasPerm s then true else runChecks env user rest

/-- The declared-entry branch of `has_field_perm` over the table `T` and
the missing-check default `D`: run the adaptation loop on the aliased
checks list — it raises NameError at its first callable element
(`partial` is undefined) — and on success use the (unchanged) list both
as the checks list and as the content the alias leaves in the
class-level table. -/
def tableBranch (env : PredSem) (user : User) (T : List (String × FPEntry)) (D : Bool)
    (field : String) (entry : FPEntry) :
    Except PyError (Bool × List (String × FPEntry)) :=
  match adaptLoop (tableChecks entry) with
  | Except.error e => Except.error e
  | Except.ok checks =>
    let tbl :=
      match entry with
      | FPEntry.single _ => T
      | FPEntry.list _ => updateEntry field (FPEntry.list checks) T
    if checks.isEmpty then Except.ok (D, tbl)
    else Except.ok (runChecks env user checks, tbl)

/-- `FieldPermissionModelMixin.has_field_perm(user, field)`: a field
with a declared table entry goes through `tableBranch` (adaptation loop,
then resolution); otherwise the convention branch builds a fresh local
checks list; an empty checks list yields the configured default. -/
def has_field_perm (env : PredSem) (self : Instance) (user : User) (field : String) :
    Except PyError (Bool × List (String × FPEntry)) :=
  match alookup field self.cls.field_permissions with
  | some entry =>
    tableBranch env user self.cls.field_permissions
      self.cls.FIELD_PERMISSION_MISSING_DEFAULT field entry
  | none =>
    let checks := conventionChecks self field
    if checks.isEmpty then
      Except.ok (self.cls.FIELD_PERMISSION_MISSING_DEFAULT, self.cls.field_permissions)
    else Except.ok (runChecks env user checks, self.cls.field_permissions)

/-- The boolean verdict of a resolver call that returned (`none` when it
raised). -/
def hfVerdict (env : PredSem) (self : Instance) (user : User) (field : String) :
    Option Bool :=
  (has_field_perm env self user field).toOption.map Prod.fst

/-- `FieldPermissionModelMixin.has_perm(user, perm)`: the instance-level
hook consulted by the backend; it queries the user's unscoped permission
check and, per the source comment, never passes an `obj` argument. -/
def FieldPermissionModelMixin_has_perm (_self : Instance) (user : User) (perm : String) : Bool :=
  user.hasPerm perm

/-- A target object as the authentication backend sees it: it either
exposes the instance-level hook `has_perm(user, perm)` or it does not
(`hasattr(obj, 'has_perm')`). -/
structure PermObj where
  hasPermHook : Option (User → String → Bool)

/-- The object built from a `FieldPermissionModelMixin` instance: its hook
is the mixin's `has_perm`. -/
def mixinPermObj (self : Instance) : PermObj :=
  ⟨some (fun u p => FieldPermissionModelMixin_has_perm self u p)⟩

/-- `InstancePermissionBackend.authenticate(username, password)`: abstains
from offering user authentication. -/
def InstancePermissionBackend_authenticate (_username _password : String) : Option User :=
  none

/-- `InstancePermissionBackend.has_perm(user_obj, perm, obj=None)`:
no object means no affirmative opinion (`False`); an object without the
instance-level hook means no instance-level restriction (`True`);
otherwise delegate to the object's hook.  This method uses no undefined
names. -/
def InstancePermissionBackend_has_perm (user_obj : User) (perm : String)
    (obj : Option PermObj) : Bool :=
  match obj with
  | none => false
  | some o =>
    match o.hasPermHook with
    | none => true
    | some h => h user_obj perm

/-- `InstancePermissionBackend.get_all_permissions(user_obj, obj=None)`
as staged: its first statement evaluates `check_support`, but
`backends.py` contains no import statements, so every call raises
`NameError: name 'check_support' is not defined` before any branch can
return a set. -/
def InstancePermissionBackend_get_all_permissions (_user_obj : User)
    (_obj : Option PermObj) : Except PyError (Finset String) :=
  Except.error (PyError.nameError "check_support")

/-- Swap in a different state of the class-level `field_permissions` table
on an instance's class, leaving everything else alone: used to thread the
table component of successive `has_field_perm` calls. -/
def setTbl (self : Instance) (tbl : List (String × FPEntry)) : Instance :=
  ⟨⟨tbl, self.cls.FIELD_PERM_CODENAME, self.cls.FIELD_PERMISSION_GETTER,
      self.cls.FIELD_PERMISSION_MISSING_DEFAULT⟩,
    self.attrs, self.model_name, self.meta_permissions⟩

theorem setTbl_self (self : Instance) : setTbl self self.cls.field_permissions = self := rfl

/-- The field-removal loop of `FieldPermissionFormMixin.__init__`:
for each model field name, when the form has the field,
`has_field_perm` is consulted (the `and` short-circuits, so absent
fields never reach it); a raise propagates out of the constructor, a
false verdict deletes the field from the form's field set. -/
def form_fields_loop (env : PredSem) (user : User) (self : Instance) :
    List String → List String → List (String × FPEntry) →
      Except PyError (List String × List (String × FPEntry))
  | [], fields, tbl => Except.ok (fields, tbl)
  | name :: rest, fields, tbl =>
    if name ∈ fields then
      match has_field_perm env (setTbl self tbl) user name with
      | Except.error e => Except.error e
      | Except.ok r =>
        if r.1 then form_fields_loop env user self rest fields r.2
        else form_fields_loop env user self rest (fields.erase name) r.2
    else form_fields_loop env user self rest fields tbl

/-- `FieldPermissionFormMixin.__init__` after the framework plumbing:
run the removal loop over the model's field names, starting from the
form's constructed field set and the class's declared table. -/
def FieldPermissionFormMixin_init (env : PredSem) (self : Instance) (user : User)
    (model_field_names : List String) (fields : List String) :
    Except PyError (List String × List (String × FPEntry)) :=
  form_fields_loop env user self model_field_names fields self.cls.field_permissions

/-- Set the `read_only` flag of the first field with the given name:
`self.fields[name].read_only = True`. -/
def markReadOnly (name : String) : List (String × Bool) → List (String × Bool)
  | [] => []
  | p :: rest => if p.1 = name then (p.1, true) :: rest else p :: markReadOnly name rest

/-- The marking loop of `FieldPermissionSerializerMixin.__init__`: for
each model field name, when the serializer has the field,
`has_field_perm` is consulted; a raise propagates, a false verdict sets
the field's `read_only` flag; the field stays present. -/
def serializer_fields_loop (env : PredSem) (user : User) (self : Instance) :
    List String → List (String × Bool) → List (String × FPEntry) →
      Except PyError (List (String × Bool) × List (String × FPEntry))
  | [], fields, tbl => Except.ok (fields, tbl)
  | name :: rest, fields, tbl =>
    if (alookup name fields).isSome then
      match has_field_perm env (setTbl self tbl) user name with
      | Except.error e => Except.error e
      | Except.ok r =>
        if r.1 then serializer_fields_loop env user self rest fields r.2
        else serializer_fields_loop env user self rest (markReadOnly name fields) r.2
    else serializer_fields_loop env user self rest fields tbl

/-- `FieldPermissionSerializerMixin.__init__` after the framework
plumbing: run the marking loop over the model's field names, starting
from the serializer's field table (field name paired with its `read_only`
flag) and the class's declared table. -/
def FieldPermissionSerializerMixin_init (env : PredSem) (self : Instance) (user : User)
    (model_field_names : List String) (fields : List (String × Bool)) :
    Except PyError (List (String × Bool) × List (String × FPEntry)) :=
  serializer_fields_loop env user self model_field_names fields self.cls.field_permissions

/-! ### Basic lemmas about the adaptation loop and the table -/

/-- A successful pass of the adaptation loop leaves the list unchanged:
the loop only assigns for callable elements, and there it raises before
assigning. -/
theorem adaptLoop_ok_eq (cs cs' : List Check) (h : adaptLoop cs = Except.ok cs') :
    cs' = cs := by
  induction cs generalizing cs' with
  | nil =>
    simp [adaptLoop] at h
    exact h
  | cons c rest ih =>
    cases c with
    | callable n => simp [adaptLoop] at h
    | str s =>
      simp only [adaptLoop] at h
      cases hr : adaptLoop rest with
      | error e => rw [hr] at h; simp [Except.map] at h
      | ok tail =>
        rw [hr] at h
        simp [Except.map] at h
        rw [← h, ih tail hr]

/-- A checks list without callable elements survives the adaptation loop. -/
theorem adaptLoop_all_str (cs : List Check) (h : ∀ ch ∈ cs, ∃ s, ch = Check.str s) :
    adaptLoop cs = Except.ok cs := by
  induction cs with
  | nil => rfl
  | cons c rest ih =>
    obtain ⟨s, rfl⟩ := h c (by simp)
    simp only [adaptLoop]
    rw [ih (fun ch hch => h ch (by simp [hch]))]
    rfl

/-- Writing an entry's looked-up value back over itself is the identity. -/
theorem updateEntry_self (g : String) (e : FPEntry) (tbl : List (String × FPEntry))
    (h : alookup g tbl = some e) : updateEntry g e tbl = tbl := by
  induction tbl with
  | nil => rfl
  | cons p rest ih =>
    obtain ⟨k, v⟩ := p
    by_cases hp : k = g
    · simp only [alookup] at h
      rw [if_pos hp] at h
      rw [Option.some_inj] at h
      simp only [updateEntry]
      rw [if_pos hp, ← h]
    · simp only [alookup] at h
      rw [if_neg hp] at h
      simp only [updateEntry]
      rw [if_neg hp, ih h]

/-- The verdict a single check contributes when treated as a permission
label: callables never do, a non-callable is decisive iff the user holds
it. -/
def labelHeld (user : User) : Check → Bool
  | Check.callable _ => false
  | Check.str s => user.hasPerm s

theorem runChecks_all_str (env : PredSem) (user : User) (cs : List Check)
    (h : ∀ ch ∈ cs, ∃ s, ch = Check.str s) :
    runChecks env user cs = cs.any (labelHeld user) := by
  induction cs with
  | nil => rfl
  | cons c rest ih =>
    obtain ⟨s, rfl⟩ := h c (by simp)
    simp only [List.any_cons]
    by_cases hs : user.hasPerm s
    · simp [runChecks, hs, labelHeld]
    · simp only [runChecks, hs, if_false, labelHeld]
      rw [ih (fun ch hch => h ch (by simp [hch]))]
      simp [hs]

/-! ### Branch equations for `has_field_perm` -/

theorem hfp_table_eq (env : PredSem) (self : Instance) (user : User)
    (field : String) (entry : FPEntry)
    (h1 : alookup field self.cls.field_permissions = some entry) :
    has_field_perm env self user field =
      tableBranch env user self.cls.field_permissions
        self.cls.FIELD_PERMISSION_MISSING_DEFAULT field entry := by
  unfold has_field_perm
  rw [h1]

theorem tableBranch_err (env : PredSem) (user : User) (T : List (String × FPEntry))
    (D : Bool) (field : String) (entry : FPEntry) (e : PyError)
    (h2 : adaptLoop (tableChecks entry) = Except.error e) :
    tableBranch env user T D field entry = Except.error e := by
  unfold tableBranch
  rw [h2]

theorem tableBranch_single_ok (env : PredSem) (user : User) (T : List (String × FPEntry))
    (D : Bool) (field : String) (c : Check) (checks : List Check)
    (h2 : adaptLoop [c] = Except.ok checks) :
    tableBranch env user T D field (FPEntry.single c) =
      (if checks.isEmpty then Except.ok (D, T)
        else Except.ok (runChecks env user checks, T)) := by
  unfold tableBranch
  have h2' : adaptLoop (tableChecks (FPEntry.single c)) = Except.ok checks := h2
  rw [h2']

theorem tableBranch_list_ok (env : PredSem) (user : User) (T : List (String × FPEntry))
    (D : Bool) (field : String) (cs checks : List Check)
    (h2 : adaptLoop cs = Except.ok checks) :
    tableBranch env user T D field (FPEntry.list cs) =
      (if checks.isEmpty then Except.ok (D, updateEntry field (FPEntry.list checks) T)
        else Except.ok (runChecks env user checks,
          updateEntry field (FPEntry.list checks) T)) := by
  unfold tableBranch
  have h2' : adaptLoop (tableChecks (FPEntry.list cs)) = Except.ok checks := h2
  rw [h2']

theorem has_field_perm_table_err (env : PredSem) (self : Instance) (user : User)
    (field : String) (entry : FPEntry) (e : PyError)
    (h1 : alookup field self.cls.field_permissions = some entry)
    (h2 : adaptLoop (tableChecks entry) = Except.error e) :
    has_field_perm env self user field = Except.error e :=
  (hfp_table_eq env self user field entry h1).trans
    (tableBranch_err env user _ _ field entry e h2)

theorem has_field_perm_single_eq (env : PredSem) (self : Instance) (user : User)
    (field : String) (c : Check) (checks : List Check)
    (h1 : alookup field self.cls.field_permissions = some (FPEntry.single c))
    (h2 : adaptLoop [c] = Except.ok checks) :
    has_field_perm env self user field =
      (if checks.isEmpty then
          Except.ok (self.cls.FIELD_PERMISSION_MISSING_DEFAULT, self.cls.field_permissions)
        else Except.ok (runChecks env user checks, self.cls.field_permissions)) :=
  (hfp_table_eq env self user field (FPEntry.single c) h1).trans
    (tableBranch_single_ok env user _ _ field c checks h2)

theorem has_field_perm_list_eq (env : PredSem) (self : Instance) (user : User)
    (field : String) (cs checks : List Check)
    (h1 : alookup field self.cls.field_permissions = some (FPEntry.list cs))
    (h2 : adaptLoop cs = Except.ok checks) :
    has_field_perm env self user field =
      (if checks.isEmpty then
          Except.ok (self.cls.FIELD_PERMISSION_MISSING_DEFAULT,
            updateEntry field (FPEntry.list checks) self.cls.field_permissions)
        else Except.ok (runChecks env user checks,
          updateEntry field (FPEntry.list checks) self.cls.field_permissions)) :=
  (hfp_table_eq env self user field (FPEntry.list cs) h1).trans
    (tableBranch_list_ok env user _ _ field cs checks h2)

theorem has_field_perm_conv_eq (env : PredSem) (self : Instance) (user : User)
    (field : String)
    (h : alookup field self.cls.field_permissions = none) :
    has_field_perm env self user field =
      (if (conventionChecks self field).isEmpty then
          Except.ok (self.cls.FIELD_PERMISSION_MISSING_DEFAULT, self.cls.field_permissions)
        else Except.ok (runChecks env user (conventionChecks self field),
          self.cls.field_permissions)) := by
  unfold has_field_perm
  rw [h]

/-- The table of every successful resolver call equals the declared
class-level table: the only write the source attempts is preceded by the
evaluation of the undefined `partial`, so no completed call has written
anything. -/
theorem hfp_ok_snd (env : PredSem) (self : Instance) (user : User) (field : String)
    (r : Bool × List (String × FPEntry))
    (h : has_field_perm env self user field = Except.ok r) :
    r.2 = self.cls.field_permissions := by
  cases halo : alookup field self.cls.field_permissions with
  | none =>
    rw [has_field_perm_conv_eq env self user field halo] at h
    cases hc : (conventionChecks self field).isEmpty <;> rw [hc] at h <;>
      simp at h <;> rw [← h]
  | some entry =>
    cases hal : adaptLoop (tableChecks entry) with
    | error e =>
      rw [has_field_perm_table_err env self user field entry e halo hal] at h
      cases h
    | ok checks =>
      have hck : checks = tableChecks entry := adaptLoop_ok_eq (tableChecks entry) checks hal
      cases entry with
      | single c =>
        rw [has_field_perm_single_eq env self user field c checks halo hal] at h
        cases hc : checks.isEmpty <;> rw [hc] at h <;> simp at h <;> rw [← h]
      | list cs =>
        have hck' : checks = cs := hck
        rw [has_field_perm_list_eq env self user field cs checks halo hal] at h
        rw [hck', updateEntry_self field (FPEntry.list cs) _ halo] at h
        cases hc : cs.isEmpty <;> rw [hc] at h <;> simp at h <;> rw [← h]

/-! ### Concrete fixtures for witnesses and failing inputs -/

/-- Environment in which every predicate abstains (returns `None`). -/
def envNone : PredSem := fun _ => none

/-- A user holding no permission labels. -/
def noPermUser : User := ⟨fun _ => false⟩

/-- A user holding exactly the static document-title permission. -/
def titleUser : User := ⟨fun s => s == "can_change_document_title"⟩

/-- A user holding every permission label. -/
def anyLabelUser : User := ⟨fun _ => true⟩

/-- A model declaring `field_permissions = {'salary': lambda}` (a bare
callable check). -/
def salaryInst : Instance :=
  ⟨FPClass.defaults [("salary", FPEntry.single (Check.callable 0))], [], "employee", []⟩

/-- A model declaring `field_permissions = {'salary': [lambda]}` (a list
holding one callable check). -/
def salaryListInst : Instance :=
  ⟨FPClass.defaults [("salary", FPEntry.list [Check.callable 0])], [], "employee", []⟩

/-- A model with an empty declaration table, no getter attributes and no
registered static permissions. -/
def notesInst : Instance := ⟨FPClass.defaults [], [], "document", []⟩

/-- A model declaring a permission-label check for its title field. -/
def titleInst : Instance :=
  ⟨FPClass.defaults [("title", FPEntry.list [Check.str "can_change_document_title"])],
    [], "document", []⟩

/-- A model with a callable getter attribute `can_change_notes`. -/
def getterInst : Instance :=
  ⟨FPClass.defaults [], [("can_change_notes", Check.callable 1)], "document", []⟩

/-- A model with the static permission `can_change_document_title`
registered in its Meta. -/
def regInst : Instance :=
  ⟨FPClass.defaults [], [], "document",
    [("can_change_document_title", "Can change title")]⟩

/-- A model whose attribute `can_change_notes` is a non-callable value. -/
def strAttrInst : Instance :=
  ⟨FPClass.defaults [], [("can_change_notes", Check.str "special_label")], "document", []⟩

/-- A model declaring a permission-label check for its ssn field (which
the fixture users do not hold). -/
def ssnInst : Instance :=
  ⟨FPClass.defaults [("ssn", FPEntry.single (Check.str "can_change_ssn"))], [], "person", []⟩

/-- An instance-hook implementation that allows everything. -/
def hookAllows : User → String → Bool := fun _ _ => true

/-- An object exposing the always-allowing instance hook. -/
def hookObj : PermObj := ⟨some hookAllows⟩

/-- An object without the instance-level hook. -/
def bareObj : PermObj := ⟨none⟩

/-! ### Claim theorems about the resolver -/

/-- Claim C1 (refuted on the staged code): resolving a field whose
declared entry is, or contains, a callable check raises
`NameError: name 'partial' is not defined` at the adaptation loop, for
every predicate environment and every user — the salary scenario crashes
instead of returning the manager bit. -/
theorem claim_C1_crash : ∀ (env : PredSem) (user : User),
    has_field_perm env salaryInst user "salary"
        = Except.error (PyError.nameError "partial")
      ∧ has_field_perm env salaryListInst user "salary"
        = Except.error (PyError.nameError "partial") :=
  fun _ _ => ⟨rfl, rfl⟩

/-- Claim C2: `has_field_perm` never mutates the class-level declaration
table: every call that returns at all carries a table equal to the
declared one (the only attempted write evaluates the undefined `partial`
before assigning, so it raises instead of writing, and a raised call
leaves nothing observable). -/
theorem claim_C2 (env : PredSem) (self : Instance) (user : User) (field : String)
    (r : Bool × List (String × FPEntry))
    (h : has_field_perm env self user field = Except.ok r) :
    r.2 = self.cls.field_permissions :=
  hfp_ok_snd env self user field r h

/-- Witness for C2: a completed resolution over a declared label list
returns the declared table unchanged. -/
theorem claim_C2_witness :
    has_field_perm envNone titleInst titleUser "title"
        = Except.ok (true, titleInst.cls.field_permissions)
      ∧ ((true, titleInst.cls.field_permissions) : Bool × List (String × FPEntry)).2
        = titleInst.cls.field_permissions :=
  ⟨rfl, claim_C2 envNone titleInst titleUser "title"
    (true, titleInst.cls.field_permissions) rfl⟩

/-- Claim C3: a field with no table entry, no getter attribute and no
registered static codename resolves to the configured
`FIELD_PERMISSION_MISSING_DEFAULT` (without touching the table), and the
source's default value of that flag is `True`. -/
theorem claim_C3 (env : PredSem) (self : Instance) (user : User) (field : String)
    (h1 : alookup field self.cls.field_permissions = none)
    (h2 : alookup (self.cls.FIELD_PERMISSION_GETTER field) self.attrs = none)
    (h3 : alookup (self.cls.FIELD_PERM_CODENAME self.model_name field)
        self.meta_permissions = none) :
    has_field_perm env self user field
        = Except.ok (self.cls.FIELD_PERMISSION_MISSING_DEFAULT, self.cls.field_permissions)
      ∧ (FPClass.defaults []).FIELD_PERMISSION_MISSING_DEFAULT = true := by
  refine ⟨?_, rfl⟩
  rw [has_field_perm_conv_eq env self user field h1]
  have hc : conventionChecks self field = [] := by
    unfold conventionChecks
    rw [h2]
    simp [h3]
  simp [hc]

/-- Witness for C3: the notes scenario — no declaration, no getter, no
registered codename, so the default `True` is returned. -/
theorem claim_C3_witness :
    has_field_perm envNone notesInst noPermUser "notes"
      = Except.ok (true, notesInst.cls.field_permissions) :=
  (claim_C3 envNone notesInst noPermUser "notes" rfl rfl rfl).1

/-- Claim C4: a field whose declared checks are all permission-label
strings (a list the adaptation loop passes unchanged) resolves to true
iff the user holds at least one of those labels under the unscoped
query; a held label anywhere in the list suffices, so an unheld label
does not short-circuit to false. -/
theorem claim_C4 (env : PredSem) (self : Instance) (user : User) (field : String)
    (cs : List Check)
    (h1 : alookup field self.cls.field_permissions = some (FPEntry.list cs))
    (h2 : ∀ ch ∈ cs, ∃ s, ch = Check.str s)
    (h3 : cs ≠ []) :
    has_field_perm env self user field
      = Except.ok (cs.any (labelHeld user), self.cls.field_permissions) := by
  have hal : adaptLoop cs = Except.ok cs := adaptLoop_all_str cs h2
  rw [has_field_perm_list_eq env self user field cs cs h1 hal]
  rw [updateEntry_self field (FPEntry.list cs) _ h1]
  have hemp : cs.isEmpty = false := by
    cases cs with
    | nil => exact absurd rfl h3
    | cons a l => rfl
  rw [hemp]
  simp [runChecks_all_str env user cs h2]

/-- Witness for C4: a held label resolves to true, an unheld one to
false. -/
theorem claim_C4_witness :
    has_field_perm envNone titleInst titleUser "title"
        = Except.ok (true, titleInst.cls.field_permissions)
      ∧ has_field_perm envNone titleInst noPermUser "title"
        = Except.ok (false, titleInst.cls.field_permissions) := by
  constructor
  · rw [claim_C4 envNone titleInst titleUser "title" [Check.str "can_change_document_title"]
      rfl (by intro ch hch; simp at hch; exact ⟨_, hch⟩) (by simp)]
    rfl
  · rw [claim_C4 envNone titleInst noPermUser "title" [Check.str "can_change_document_title"]
      rfl (by intro ch hch; simp at hch; exact ⟨_, hch⟩) (by simp)]
    rfl

/-- Claim C5 (refuted on the staged code for table-declared predicates):
a checks list declared in the table with an abstaining callable raises
`NameError: name 'partial' is not defined` before the predicate is ever
invoked; on the only path where a predicate really runs — a
getter-synthesized check — an abstention does fall through to the final
`False`, as the claim describes. -/
theorem claim_C5_crash :
    (∀ env : PredSem, has_field_perm env salaryListInst noPermUser "salary"
        = Except.error (PyError.nameError "partial"))
      ∧ has_field_perm envNone getterInst noPermUser "notes"
        = Except.ok (false, getterInst.cls.field_permissions) :=
  ⟨fun _ => rfl, rfl⟩

/-- Claim C7: for a field with no table entry, convention synthesis
prefers a getter attribute (it becomes the sole check); only when no such
attribute exists is the static codename consulted, and it becomes the
sole check exactly when it is registered among the model's declared
permissions, the checks list staying empty otherwise. -/
theorem claim_C7 (env : PredSem) (self : Instance) (user : User) (field : String)
    (h1 : alookup field self.cls.field_permissions = none) :
    (∀ a, alookup (self.cls.FIELD_PERMISSION_GETTER field) self.attrs = some a →
      conventionChecks self field = [a]
        ∧ has_field_perm env self user field
          = Except.ok (runChecks env user [a], self.cls.field_permissions))
    ∧ (alookup (self.cls.FIELD_PERMISSION_GETTER field) self.attrs = none →
      ((alookup (self.cls.FIELD_PERM_CODENAME self.model_name field)
            self.meta_permissions).isSome = true →
        conventionChecks self field =
            [Check.str (self.cls.FIELD_PERM_CODENAME self.model_name field)]
          ∧ has_field_perm env self user field =
            Except.ok (runChecks env user
                [Check.str (self.cls.FIELD_PERM_CODENAME self.model_name field)],
              self.cls.field_permissions))
      ∧ ((alookup (self.cls.FIELD_PERM_CODENAME self.model_name field)
            self.meta_permissions).isSome = false →
        conventionChecks self field = []
          ∧ has_field_perm env self user field =
            Except.ok (self.cls.FIELD_PERMISSION_MISSING_DEFAULT,
              self.cls.field_permissions))) := by
  constructor
  · intro a ha
    have hc : conventionChecks self field = [a] := by
      unfold conventionChecks
      rw [ha]
    refine ⟨hc, ?_⟩
    rw [has_field_perm_conv_eq env self user field h1, hc]
    rfl
  · intro hg
    constructor
    · intro hreg
      have hc : conventionChecks self field =
          [Check.str (self.cls.FIELD_PERM_CODENAME self.model_name field)] := by
        unfold conventionChecks
        rw [hg]
        simp [hreg]
      refine ⟨hc, ?_⟩
      rw [has_field_perm_conv_eq env self user field h1, hc]
      rfl
    · intro hreg
      have hc : conventionChecks self field = [] := by
        unfold conventionChecks
        rw [hg]
        simp [hreg]
      refine ⟨hc, ?_⟩
      rw [has_field_perm_conv_eq env self user field h1, hc]
      rfl

/-- Witness for C7: a getter attribute becomes the sole check; a
registered codename becomes the sole check; an unregistered codename
leaves the checks empty. -/
theorem claim_C7_witness :
    conventionChecks getterInst "notes" = [Check.callable 1]
      ∧ conventionChecks regInst "title" = [Check.str "can_change_document_title"]
      ∧ conventionChecks notesInst "notes" = [] := by
  refine ⟨?_, ?_, ?_⟩
  · exact ((claim_C7 envNone getterInst noPermUser "notes" rfl).1 (Check.callable 1) rfl).1
  · exact (((claim_C7 envNone regInst noPermUser "title" rfl).2 rfl).1 rfl).1
  · exact (((claim_C7 envNone notesInst noPermUser "notes" rfl).2 rfl).2 rfl).1

/-- Claim C10: the getter convention triggers on attribute existence, not
callability — a non-callable attribute matching the getter template
becomes the sole check, the static-codename fallback is skipped, and the
attribute's value is handed to the unscoped `user.has_perm` as a
permission label (this path never reaches the adaptation loop, so it
completes). -/
theorem claim_C10 (env : PredSem) (self : Instance) (user : User) (field : String)
    (v : String)
    (h1 : alookup field self.cls.field_permissions = none)
    (h2 : alookup (self.cls.FIELD_PERMISSION_GETTER field) self.attrs = some (Check.str v)) :
    conventionChecks self field = [Check.str v]
      ∧ has_field_perm env self user field
        = Except.ok (user.hasPerm v, self.cls.field_permissions) := by
  have hc : conventionChecks self field = [Check.str v] := by
    unfold conventionChecks
    rw [h2]
  refine ⟨hc, ?_⟩
  rw [has_field_perm_conv_eq env self user field h1, hc]
  by_cases h : user.hasPerm v <;> simp [runChecks, h]

/-- Witness for C10: a non-callable getter attribute is used as a
permission label; a user holding every label resolves to true. -/
theorem claim_C10_witness :
    conventionChecks strAttrInst "notes" = [Check.str "special_label"]
      ∧ has_field_perm envNone strAttrInst anyLabelUser "notes"
        = Except.ok (true, strAttrInst.cls.field_permissions) :=
  ⟨(claim_C10 envNone strAttrInst anyLabelUser "notes" "special_label" rfl rfl).1,
    (claim_C10 envNone strAttrInst anyLabelUser "notes" "special_label" rfl rfl).2⟩

/-! ### The form and serializer construction loops -/

theorem alookup_markReadOnly (name n : String) (sf : List (String × Bool)) :
    alookup n (markReadOnly name sf)
      = if n = name then (alookup n sf).map (fun _ => true) else alookup n sf := by
  induction sf with
  | nil => simp [markReadOnly, alookup]
  | cons p rest ih =>
    by_cases hp : p.1 = name
    · by_cases hn : n = name
      · simp [markReadOnly, alookup, hp, hn]
      · have hpn : ¬p.1 = n := by rw [hp]; intro hx; exact hn hx.symm
        have hne : ¬name = n := fun hx => hn hx.symm
        simp [markReadOnly, alookup, hp, hn, hpn, hne]
    · by_cases hpn : p.1 = n
      · have hn : ¬n = name := by rw [← hpn]; intro hx; exact hp hx
        simp [markReadOnly, alookup, hp, hpn, hn]
      · simp [markReadOnly, alookup, hp, hpn, ih]

theorem form_loop_mem (env : PredSem) (user : User) (self : Instance) :
    ∀ (names fields : List String) (res : List String × List (String × FPEntry)),
      fields.Nodup →
      form_fields_loop env user self names fields self.cls.field_permissions
        = Except.ok res →
      ∀ n, n ∈ res.1
        ↔ n ∈ fields ∧ ¬(n ∈ names ∧ hfVerdict env self user n = some false) := by
  intro names
  induction names with
  | nil =>
    intro fields res _ hres n
    simp only [form_fields_loop] at hres
    rw [Except.ok.injEq] at hres
    rw [← hres]
    simp
  | cons name rest ih =>
    intro fields res hnd hres n
    simp only [form_fields_loop, setTbl_self] at hres
    by_cases hm : name ∈ fields
    · rw [if_pos hm] at hres
      split at hres
      · simp at hres
      · rename_i r hhf
        have hsnd : r.2 = self.cls.field_permissions := hfp_ok_snd env self user name r hhf
        rw [hsnd] at hres
        cases hr : r.1
        · rw [hr] at hres
          simp only [Bool.false_eq_true, if_false] at hres
          have hpn : hfVerdict env self user name = some false := by
            simp [hfVerdict, hhf, Except.toOption, hr]
          rw [ih (fields.erase name) res (hnd.erase name) hres n]
          by_cases hnn : n = name
          · subst hnn
            simp [List.Nodup.mem_erase_iff hnd, hpn, hm]
          · simp only [List.Nodup.mem_erase_iff hnd, List.mem_cons, hnn, false_or, ne_eq,
              not_false_iff, true_and]
        · rw [hr] at hres
          simp only [if_true] at hres
          have hpn : hfVerdict env self user name = some true := by
            simp [hfVerdict, hhf, Except.toOption, hr]
          rw [ih fields res hnd hres n]
          by_cases hnn : n = name
          · subst hnn
            simp [hpn, hm]
          · simp only [List.mem_cons, hnn, false_or]
    · rw [if_neg hm] at hres
      rw [ih fields res hnd hres n]
      by_cases hnn : n = name
      · subst hnn
        simp [hm]
      · simp only [List.mem_cons, hnn, false_or]

theorem ser_loop_lookup (env : PredSem) (user : User) (self : Instance) :
    ∀ (names : List String) (sf : List (String × Bool))
      (res : List (String × Bool) × List (String × FPEntry)),
      serializer_fields_loop env user self names sf self.cls.field_permissions
        = Except.ok res →
      ∀ n, alookup n res.1
        = (alookup n sf).map
            (fun b => b
              || (decide (n ∈ names)
                && decide (hfVerdict env self user n = some false))) := by
  intro names
  induction names with
  | nil =>
    intro sf res hres n
    simp only [serializer_fields_loop] at hres
    rw [Except.ok.injEq] at hres
    rw [← hres]
    cases halo : alookup n sf <;> simp [halo]
  | cons name rest ih =>
    intro sf res hres n
    simp only [serializer_fields_loop, setTbl_self] at hres
    by_cases hk : (alookup name sf).isSome
    · rw [if_pos hk] at hres
      split at hres
      · simp at hres
      · rename_i r hhf
        have hsnd : r.2 = self.cls.field_permissions := hfp_ok_snd env self user name r hhf
        rw [hsnd] at hres
        cases hr : r.1
        · rw [hr] at hres
          simp only [Bool.false_eq_true, if_false] at hres
          have hpn : hfVerdict env self user name = some false := by
            simp [hfVerdict, hhf, Except.toOption, hr]
          rw [ih (markReadOnly name sf) res hres n, alookup_markReadOnly name n sf]
          by_cases hnn : n = name
          · subst hnn
            rw [if_pos rfl]
            cases halo : alookup n sf <;> simp [halo, hpn]
          · simp only [hnn, if_false, List.mem_cons, false_or]
        · rw [hr] at hres
          simp only [if_true] at hres
          have hpn : hfVerdict env self user name = some true := by
            simp [hfVerdict, hhf, Except.toOption, hr]
          rw [ih sf res hres n]
          by_cases hnn : n = name
          · subst hnn
            cases halo : alookup n sf with
            | none => rfl
            | some b => simp [halo, hpn]
          · simp only [List.mem_cons, hnn, false_or]
    · rw [if_neg hk] at hres
      rw [ih sf res hres n]
      by_cases hnn : n = name
      · subst hnn
        have hnone : alookup n sf = none := by
          cases hx : alookup n sf with
          | none => rfl
          | some b => rw [hx] at hk; exact absurd rfl hk
        simp [hnone]
      · simp only [List.mem_cons, hnn, false_or]

/-- Claim C8: whenever form construction completes, a model field that
was present on the form and denied by `has_field_perm` is deleted from
the form's field set, and every other field of the initial set is kept;
whenever serializer construction completes, such a field stays present
with its `read_only` flag set; names not on the form/serializer are
skipped untouched.  (A resolution that raises NameError aborts
construction instead, so only completed runs are characterized.) -/
theorem claim_C8 (env : PredSem) (self : Instance) (user : User)
    (model_field_names fields : List String) (sfields : List (String × Bool))
    (hnd : fields.Nodup) :
    (∀ res, FieldPermissionFormMixin_init env self user model_field_names fields
        = Except.ok res →
      ∀ n, n ∈ res.1
        ↔ n ∈ fields
          ∧ ¬(n ∈ model_field_names ∧ hfVerdict env self user n = some false))
    ∧ (∀ res, FieldPermissionSerializerMixin_init env self user model_field_names sfields
        = Except.ok res →
      ∀ n, alookup n res.1
        = (alookup n sfields).map
            (fun b => b
              || (decide (n ∈ model_field_names)
                && decide (hfVerdict env self user n = some false)))) :=
  ⟨fun res hres => form_loop_mem env user self model_field_names fields res hnd hres,
    fun res hres => ser_loop_lookup env user self model_field_names sfields res hres⟩

/-- Witness for C8: a user denied on "ssn" through a label check (a path
that completes) sees the field removed from the form and kept read-only
on the serializer. -/
theorem claim_C8_witness :
    ("ssn" ∈ (["name"] : List String)
      ↔ "ssn" ∈ ["ssn", "name"]
        ∧ ¬("ssn" ∈ ["ssn", "name"]
          ∧ hfVerdict envNone ssnInst noPermUser "ssn" = some false))
    ∧ alookup "ssn" [("ssn", true), ("name", false)]
      = (alookup "ssn" [("ssn", false), ("name", false)]).map
          (fun b => b || (decide ("ssn" ∈ (["ssn", "name"] : List String))
            && decide (hfVerdict envNone ssnInst noPermUser "ssn" = some false))) := by
  have h := claim_C8 envNone ssnInst noPermUser ["ssn", "name"] ["ssn", "name"]
    [("ssn", false), ("name", false)] (by decide)
  exact ⟨h.1 (["name"], ssnInst.cls.field_permissions) rfl "ssn",
    h.2 ([("ssn", true), ("name", false)], ssnInst.cls.field_permissions) rfl "ssn"⟩

/-! ### The backend claims -/

/-- Claim C6: the backend's `has_perm` denies without an object, allows
for an object lacking the instance-level hook, delegates to the hook when
present, and on a mixin instance the hook is the user's own unscoped
permission query (never handed an `obj`). -/
theorem claim_C6 (user : User) (perm : String) :
    InstancePermissionBackend_has_perm user perm none = false
      ∧ (∀ o : PermObj, o.hasPermHook = none →
          InstancePermissionBackend_has_perm user perm (some o) = true)
      ∧ (∀ (o : PermObj) (h : User → String → Bool), o.hasPermHook = some h →
          InstancePermissionBackend_has_perm user perm (some o) = h user perm)
      ∧ (∀ self : Instance,
          InstancePermissionBackend_has_perm user perm (some (mixinPermObj self))
            = user.hasPerm perm) := by
  refine ⟨rfl, ?_, ?_, ?_⟩
  · intro o ho
    simp [InstancePermissionBackend_has_perm, ho]
  · intro o h ho
    simp [InstancePermissionBackend_has_perm, ho]
  · intro self
    rfl

/-- Witness for C6: the three object cases of the backend, plus the
delegation to a mixin instance's unscoped user query. -/
theorem claim_C6_witness :
    InstancePermissionBackend_has_perm noPermUser "x" none = false
      ∧ InstancePermissionBackend_has_perm noPermUser "x" (some bareObj) = true
      ∧ InstancePermissionBackend_has_perm noPermUser "x" (some hookObj)
        = hookAllows noPermUser "x"
      ∧ InstancePermissionBackend_has_perm noPermUser "x" (some (mixinPermObj notesInst))
        = false :=
  ⟨(claim_C6 noPermUser "x").1,
    (claim_C6 noPermUser "x").2.1 bareObj rfl,
    (claim_C6 noPermUser "x").2.2.1 hookObj hookAllows rfl,
    (claim_C6 noPermUser "x").2.2.2 notesInst⟩

/-- Claim C9 (refuted on the staged code): `get_all_permissions`
evaluates the undefined name `check_support` before its first branch
(backends.py has no import statements), so every call raises NameError —
it never returns the empty set nor an external checker's set. -/
theorem claim_C9_crash : ∀ (user_obj : User) (obj : Option PermObj),
    InstancePermissionBackend_get_all_permissions user_obj obj
      = Except.error (PyError.nameError "check_support") :=
  fun _ _ => rfl

end FieldPerm
